import Mathlib

/-!
Shallow embedding of the progression / access-control subsystem of the
junivia-api backend (a level-based jigsaw-puzzle app).

The embedded routes are:
* `GET  /puzzles`            (`src/routes/puzzles.ts`)  → `listPuzzles`
* `GET  /puzzles/:id`        (`src/routes/puzzles.ts`)  → `getPuzzleById`
* `PUT  /progress/:puzzleId` (`src/routes/progress.ts`) → `putProgress`
* `DELETE /progress/:puzzleId` (`src/routes/progress.ts`) → `deleteProgress`

The MongoDB collections (`Puzzle`, `UserProgress`, `User`) are lists of
records; `findOne` is `List.find?`, `countDocuments` is `List.countP`,
`findOneAndDelete` is `List.eraseP`, and `findOneAndUpdate` with
`upsert: true, new: true` is the explicit `upsertProgress` below.  Both
schemas use `timestamps: true`, so `createdAt` is stamped only when a
document is inserted and is untouched by `$set` updates.  Wall-clock time
is a `Nat` (milliseconds since the Unix epoch), passed explicitly as `now`.
-/

namespace Junivia

/-- Subscription tier (`models/User.ts`): `"free" | "pro"`. -/
inductive Tier where
  | free
  | pro
deriving DecidableEq, Repr

/-- A `User` document, restricted to the fields this subsystem reads. -/
structure User where
  id : Nat
  subscriptionTier : Tier
deriving DecidableEq, Repr

/-- A `Puzzle` document (`models/Puzzle.ts`).  `imageUrl`/`imageKey` are
opaque metadata and irrelevant to every route here, so they are kept as a
single opaque string field `imageUrl`. -/
structure Puzzle where
  id : Nat
  title : String
  imageUrl : String
  gridRows : Nat
  gridCols : Nat
  levelOrder : Nat
  isActive : Bool
deriving DecidableEq, Repr

/-- A `UserProgress` document (`models/UserProgress.ts`). -/
structure ProgressRecord where
  userId : Nat
  puzzleId : Nat
  placedPieceIds : List String
  isCompleted : Bool
  completedAt : Option Nat
  createdAt : Nat
deriving DecidableEq, Repr

/-- The state of the MongoDB store: the three collections. -/
structure DB where
  puzzles : List Puzzle
  progress : List ProgressRecord
  users : List User
deriving DecidableEq, Repr

/-- Milliseconds in one day. -/
def msPerDay : Nat := 86400000

/-- Embeds `const startOfDay = new Date(); startOfDay.setUTCHours(0, 0, 0, 0)`
— the current instant truncated to 00:00:00 UTC of the current date. -/
def startOfDayUTC (now : Nat) : Nat := now - now % msPerDay

/-- Embeds `Puzzle.findOne` on `\x7b _id: puzzleId, isActive: true \x7d`. -/
def findActivePuzzleById (db : DB) (pid : Nat) : Option Puzzle :=
  db.puzzles.find? (fun p => p.id == pid && p.isActive)

/-- Embeds `Puzzle.findById(puzzleId)` — note: no `isActive` filter. -/
def findPuzzleById (db : DB) (pid : Nat) : Option Puzzle :=
  db.puzzles.find? (fun p => p.id == pid)

/-- Embeds `Puzzle.findOne` on `\x7b levelOrder: ord, isActive: true \x7d`. -/
def findActivePuzzleByOrder (db : DB) (ord : Nat) : Option Puzzle :=
  db.puzzles.find? (fun p => p.levelOrder == ord && p.isActive)

/-- Embeds `UserProgress.findOne` on `\x7b userId, puzzleId \x7d`. -/
def findProgress (db : DB) (userId pid : Nat) : Option ProgressRecord :=
  db.progress.find? (fun r => r.userId == userId && r.puzzleId == pid)

/-- Embeds `UserProgress.findOne` on `\x7b userId, puzzleId, isCompleted: true \x7d`. -/
def findCompletedProgress (db : DB) (userId pid : Nat) : Option ProgressRecord :=
  db.progress.find? (fun r => r.userId == userId && r.puzzleId == pid && r.isCompleted)

/-- Embeds `User.findById(userId)` followed by `user?.subscriptionTier || "free"`. -/
def userTier (db : DB) (userId : Nat) : Tier :=
  match db.users.find? (fun u => u.id == userId) with
  | some u => u.subscriptionTier
  | none => Tier.free

/-- Embeds `UserProgress.countDocuments` on `\x7b userId, createdAt: \x7b $gte: since \x7d \x7d`. -/
def countStartedSince (db : DB) (userId since : Nat) : Nat :=
  db.progress.countP (fun r => r.userId == userId && since ≤ r.createdAt)

/-- Embeds `progress && progress.placedPieceIds.length > 0` in `GET /puzzles/:id`. -/
def hasExistingProgress (progress : Option ProgressRecord) : Bool :=
  match progress with
  | some r => 0 < r.placedPieceIds.length
  | none => false

/-- The unlock check of `GET /puzzles/:id`: locked iff `levelOrder > 1`,
an active puzzle at `levelOrder - 1` exists, and this user has no
completed progress record on it.  When no active predecessor exists the
check passes (the route skips the 403). -/
def lockCheck (db : DB) (userId : Nat) (puzzle : Puzzle) : Bool :=
  if 1 < puzzle.levelOrder then
    match findActivePuzzleByOrder db (puzzle.levelOrder - 1) with
    | some prev => (findCompletedProgress db userId prev.id).isNone
    | none => false
  else false

/-- Outcome of `GET /puzzles/:id` as seen by the client. -/
inductive FetchResult where
  | notFound
  | levelLocked
  | dailyLimit
  | ok (puzzle : Puzzle) (progress : Option ProgressRecord)
deriving DecidableEq, Repr

/-- Route `GET /puzzles/:id`: 404 when the puzzle is absent or inactive; 403
`Level locked` when `lockCheck` fails; then, for free users with no
non-empty progress on this puzzle, 403 `daily_limit` when at least one
progress record of this user was created since UTC midnight; otherwise
200 with the puzzle and the user's progress (or `none`). -/
def getPuzzleById (db : DB) (now userId pid : Nat) : FetchResult :=
  match findActivePuzzleById db pid with
  | none => FetchResult.notFound
  | some puzzle =>
    if lockCheck db userId puzzle then FetchResult.levelLocked
    else
      let progress := findProgress db userId pid
      if userTier db userId == Tier.free then
        if hasExistingProgress progress then
          FetchResult.ok puzzle progress
        else
          if 1 ≤ countStartedSince db userId (startOfDayUTC now) then
            FetchResult.dailyLimit
          else
            FetchResult.ok puzzle progress
      else
        FetchResult.ok puzzle progress

/-- One entry of the `GET /puzzles` listing, restricted to the fields the
claims are about. -/
structure PuzzleStatus where
  id : Nat
  levelOrder : Nat
  isUnlocked : Bool
  isCompleted : Bool
  progress : Option ProgressRecord
deriving DecidableEq, Repr

/-- Stable insertion of a puzzle into a list sorted ascending by
`levelOrder` (a puzzle is inserted after every earlier puzzle with the
same or a smaller `levelOrder`). -/
def insertByOrder (p : Puzzle) : List Puzzle → List Puzzle
  | [] => [p]
  | q :: qs =>
    if p.levelOrder < q.levelOrder then p :: q :: qs else q :: insertByOrder p qs

/-- Embeds `.sort` on `\x7b levelOrder: 1 \x7d` — a stable ascending sort by `levelOrder`. -/
def sortByLevelOrder (l : List Puzzle) : List Puzzle :=
  l.foldr insertByOrder []

/-- The `completedLevels` set of `GET /puzzles`: orders of the (active,
listed) puzzles on which this user has a completed progress record.
`.filter(Boolean)` drops both records whose puzzle is not among the
listed (active) puzzles and a hypothetical `levelOrder` of `0`. -/
def completedLevels (puzzles : List Puzzle) (progressRecords : List ProgressRecord) :
    List Nat :=
  (progressRecords.filter (fun p => p.isCompleted)).filterMap
    (fun p =>
      match puzzles.find? (fun pz => pz.id == p.puzzleId) with
      | some pz => if pz.levelOrder == 0 then none else some pz.levelOrder
      | none => none)

/-- Route `GET /puzzles`: list all active puzzles ascending by `levelOrder`,
each with its unlock status (`levelOrder == 1` or the previous order is
in `completedLevels`), completion flag and the user's progress record. -/
def listPuzzles (db : DB) (userId : Nat) : List PuzzleStatus :=
  let puzzles := sortByLevelOrder (db.puzzles.filter (fun p => p.isActive))
  let progressRecords := db.progress.filter (fun r => r.userId == userId)
  let completed := completedLevels puzzles progressRecords
  puzzles.map (fun puzzle =>
    let progress := progressRecords.find? (fun r => r.puzzleId == puzzle.id)
    { id := puzzle.id
      levelOrder := puzzle.levelOrder
      isUnlocked := puzzle.levelOrder == 1 || completed.contains (puzzle.levelOrder - 1)
      isCompleted := (progress.map (fun p => p.isCompleted)).getD false
      progress := progress })

/-- Outcome of `PUT /progress/:puzzleId` as seen by the client (the 400
validation branch is handled before this core and is not modelled). -/
inductive SaveResult where
  | notFound
  | ok (progress : ProgressRecord)
deriving DecidableEq, Repr

/-- The `$set` document of the upsert in `PUT /progress/:puzzleId`:
new `placedPieceIds` and `isCompleted`, and
`completedAt: isCompleted ? new Date() : null`. -/
def applyProgressSet (r : ProgressRecord) (placedPieceIds : List String)
    (isCompleted : Bool) (now : Nat) : ProgressRecord :=
  { r with
    placedPieceIds := placedPieceIds
    isCompleted := isCompleted
    completedAt := if isCompleted then some now else none }

/-- Embeds `UserProgress.findOneAndUpdate` with the key, the `$set` document
and options `upsert: true, new: true`: apply the `$set` to the first matching
document, or insert a fresh document (with `createdAt = now`, from
`timestamps: true`) when none matches.  Returns the post-update document
and the new collection. -/
def upsertProgress (l : List ProgressRecord) (userId pid : Nat)
    (placedPieceIds : List String) (isCompleted : Bool) (now : Nat) :
    ProgressRecord × List ProgressRecord :=
  match l with
  | [] =>
    let r : ProgressRecord :=
      { userId := userId
        puzzleId := pid
        placedPieceIds := placedPieceIds
        isCompleted := isCompleted
        completedAt := if isCompleted then some now else none
        createdAt := now }
    (r, [r])
  | x :: xs =>
    if x.userId == userId && x.puzzleId == pid then
      let x' := applyProgressSet x placedPieceIds isCompleted now
      (x', x' :: xs)
    else
      let res := upsertProgress xs userId pid placedPieceIds isCompleted now
      (res.1, x :: res.2)

/-- Route `PUT /progress/:puzzleId`: 404 when `findById` misses (an inactive
puzzle is still found); otherwise compute
`isCompleted = placedPieceIds.length >= gridRows * gridCols`, upsert the
progress document, and return it.  No unlock check and no daily-quota
check appear on this route. -/
def putProgress (db : DB) (now userId pid : Nat) (placedPieceIds : List String) :
    SaveResult × DB :=
  match findPuzzleById db pid with
  | none => (SaveResult.notFound, db)
  | some puzzle =>
    let totalPieces := puzzle.gridRows * puzzle.gridCols
    let isCompleted := decide (totalPieces ≤ placedPieceIds.length)
    let res := upsertProgress db.progress userId pid placedPieceIds isCompleted now
    (SaveResult.ok res.1, { db with progress := res.2 })

/-- Route `DELETE /progress/:puzzleId`: embeds
`UserProgress.findOneAndDelete` on the `\x7b userId, puzzleId \x7d` key. -/
def deleteProgress (db : DB) (userId pid : Nat) : DB :=
  { db with
    progress := db.progress.eraseP (fun r => r.userId == userId && r.puzzleId == pid) }

/-! ### Concrete fixtures used by counterexamples and witnesses -/

/-- An instant on day 2 of the epoch, 5 seconds past UTC midnight. -/
def exNow : Nat := 2 * msPerDay + 5000

/-- Active 2×2 puzzle at `levelOrder` 1. -/
def pzA : Puzzle :=
  { id := 1, title := "A", imageUrl := "a.png", gridRows := 2, gridCols := 2,
    levelOrder := 1, isActive := true }

/-- Active 2×2 puzzle at `levelOrder` 2. -/
def pzB : Puzzle :=
  { id := 2, title := "B", imageUrl := "b.png", gridRows := 2, gridCols := 2,
    levelOrder := 2, isActive := true }

/-- Active 2×2 puzzle at `levelOrder` 3. -/
def pzC : Puzzle :=
  { id := 3, title := "C", imageUrl := "c.png", gridRows := 2, gridCols := 2,
    levelOrder := 3, isActive := true }

/-- A free-tier user. -/
def uFree : User := { id := 7, subscriptionTier := Tier.free }

/-- A pro-tier user. -/
def uPro : User := { id := 8, subscriptionTier := Tier.pro }

/-- User 7 started puzzle 1 today (one piece placed, not completed). -/
def recStartedToday : ProgressRecord :=
  { userId := 7, puzzleId := 1, placedPieceIds := ["p1"], isCompleted := false,
    completedAt := none, createdAt := exNow }

/-- User 7 has a progress record for puzzle 1 with zero placed pieces,
created today. -/
def recEmptyToday : ProgressRecord :=
  { userId := 7, puzzleId := 1, placedPieceIds := [], isCompleted := false,
    completedAt := none, createdAt := exNow }

/-- User 7 completed puzzle 1 at instant 1000. -/
def recDone : ProgressRecord :=
  { userId := 7, puzzleId := 1, placedPieceIds := ["a", "b", "c", "d"],
    isCompleted := true, completedAt := some 1000, createdAt := 1000 }

/-- Store for C1: puzzle 2 is locked for user 7 (puzzle 1 active, not
completed) and user 7's free-tier quota is exhausted (one record created
today). -/
def dbC1 : DB := { puzzles := [pzA, pzB], progress := [recStartedToday], users := [uFree] }

/-- The record `PUT /progress/2` persists for user 7 on `dbC1`. -/
def recC1saved : ProgressRecord :=
  { userId := 7, puzzleId := 2, placedPieceIds := ["q1"], isCompleted := false,
    completedAt := none, createdAt := exNow }

/-- Store for C2: user 7 is free and owns exactly one progress record —
an empty one for puzzle 1, created today. -/
def dbC2 : DB := { puzzles := [pzA], progress := [recEmptyToday], users := [uFree] }

/-- Store for C3: user 7 has completed puzzle 1. -/
def dbC3 : DB := { puzzles := [pzA], progress := [recDone], users := [uFree] }

/-- The record a later 1-piece save leaves on `dbC3`. -/
def recC3after : ProgressRecord :=
  { userId := 7, puzzleId := 1, placedPieceIds := ["a"], isCompleted := false,
    completedAt := none, createdAt := 1000 }

/-- Store for C4/C5: puzzle 1 exists and user 7 has no progress. -/
def dbFresh : DB := { puzzles := [pzA], progress := [], users := [uFree] }

/-- A full 2×2 solution (4 distinct piece ids). -/
def pieces4 : List String := ["a", "b", "c", "d"]

/-- Result of saving `pieces4` on `dbFresh` at instant 10. -/
def recC4first : ProgressRecord :=
  { userId := 7, puzzleId := 1, placedPieceIds := pieces4, isCompleted := true,
    completedAt := some 10, createdAt := 10 }

/-- Result of re-saving `pieces4` at instant 20: `completedAt` is
re-stamped. -/
def recC4second : ProgressRecord :=
  { userId := 7, puzzleId := 1, placedPieceIds := pieces4, isCompleted := true,
    completedAt := some 20, createdAt := 10 }

/-- Four copies of one piece id: length 4, one distinct entry. -/
def dupPieces : List String := ["a", "a", "a", "a"]

/-- Result of saving `dupPieces` on `dbFresh` at `exNow`. -/
def recC5after : ProgressRecord :=
  { userId := 7, puzzleId := 1, placedPieceIds := dupPieces, isCompleted := true,
    completedAt := some exNow, createdAt := exNow }

/-- Store for C6: active puzzles at orders 1 and 3 only — a gap at
order 2.  The user is pro, so the quota never interferes. -/
def dbGap : DB := { puzzles := [pzA, pzC], progress := [], users := [uPro] }

/-- Store for C7: levels 1 and 2 active, user 7 has completed level 1,
so level 2 is unlocked. -/
def dbC7 : DB := { puzzles := [pzA, pzB], progress := [recDone], users := [uFree] }

/-- Store for C8: active puzzles at orders 1 and 3 (gap at 2, so the
order-3 puzzle is not locked); free user 7 started puzzle 1 today and has
no record on puzzle 3. -/
def dbC8 : DB := { puzzles := [pzA, pzC], progress := [recStartedToday], users := [uFree] }

/-- Three distinct piece ids — one short of the 2×2 threshold. -/
def pieces3 : List String := ["a", "b", "c"]

/-- Result of saving `pieces3` on `dbFresh` at instant 10. -/
def recThreeSaved : ProgressRecord :=
  { userId := 7, puzzleId := 1, placedPieceIds := pieces3, isCompleted := false,
    completedAt := none, createdAt := 10 }

/-- The fresh record created by a save at instant 99 after a reset. -/
def recFreshReset : ProgressRecord :=
  { userId := 7, puzzleId := 1, placedPieceIds := ["z"], isCompleted := false,
    completedAt := none, createdAt := 99 }

/-- The listing entry of the order-3 puzzle on `dbGap`: locked. -/
def stGap : PuzzleStatus :=
  { id := 3, levelOrder := 3, isUnlocked := false, isCompleted := false, progress := none }

end Junivia

namespace Junivia

/-! ### Helper lemmas -/

/-- Two progress records with equal fields are equal. -/
theorem ProgressRecord.eq_of_fields (a b : ProgressRecord)
    (h1 : a.userId = b.userId) (h2 : a.puzzleId = b.puzzleId)
    (h3 : a.placedPieceIds = b.placedPieceIds) (h4 : a.isCompleted = b.isCompleted)
    (h5 : a.completedAt = b.completedAt) (h6 : a.createdAt = b.createdAt) : a = b := by
  cases a
  cases b
  simp_all

/-- When a matching record exists, the upsert returns that record with the
`$set` fields applied. -/
theorem upsertProgress_fst_of_find?_eq_some
    (l : List ProgressRecord) (userId pid : Nat) (ps : List String) (c : Bool) (now : Nat)
    (x : ProgressRecord)
    (h : l.find? (fun r => r.userId == userId && r.puzzleId == pid) = some x) :
    (upsertProgress l userId pid ps c now).1 = applyProgressSet x ps c now := by
  induction l with
  | nil => simp at h
  | cons y ys ih =>
    by_cases hy : (y.userId == userId && y.puzzleId == pid) = true
    · have hfy : List.find? (fun r => r.userId == userId && r.puzzleId == pid) (y :: ys) =
          some y := List.find?_cons_of_pos ys hy
      rw [hfy] at h
      cases h
      simp [upsertProgress, hy]
    · have hfy : List.find? (fun r => r.userId == userId && r.puzzleId == pid) (y :: ys) =
          List.find? (fun r => r.userId == userId && r.puzzleId == pid) ys :=
        List.find?_cons_of_neg ys hy
      rw [hfy] at h
      simp [upsertProgress, hy, ih h]

/-- When no matching record exists, the upsert returns a freshly inserted
record, its `createdAt` stamped with the present call's time. -/
theorem upsertProgress_fst_of_find?_eq_none
    (l : List ProgressRecord) (userId pid : Nat) (ps : List String) (c : Bool) (now : Nat)
    (h : l.find? (fun r => r.userId == userId && r.puzzleId == pid) = none) :
    (upsertProgress l userId pid ps c now).1 =
      { userId := userId, puzzleId := pid, placedPieceIds := ps, isCompleted := c,
        completedAt := if c then some now else none, createdAt := now } := by
  induction l with
  | nil => simp [upsertProgress]
  | cons y ys ih =>
    by_cases hy : (y.userId == userId && y.puzzleId == pid) = true
    · have hfy : List.find? (fun r => r.userId == userId && r.puzzleId == pid) (y :: ys) =
          some y := List.find?_cons_of_pos ys hy
      rw [hfy] at h
      exact absurd h (by simp)
    · have hfy : List.find? (fun r => r.userId == userId && r.puzzleId == pid) (y :: ys) =
          List.find? (fun r => r.userId == userId && r.puzzleId == pid) ys :=
        List.find?_cons_of_neg ys hy
      rw [hfy] at h
      simp [upsertProgress, hy, ih h]

/-- The record an upsert returns always carries the just-supplied payload:
the new piece list, the freshly computed completion flag, and a
`completedAt` recomputed from this call alone. -/
theorem upsertProgress_fst_fields
    (l : List ProgressRecord) (userId pid : Nat) (ps : List String) (c : Bool) (now : Nat) :
    (upsertProgress l userId pid ps c now).1.placedPieceIds = ps ∧
    (upsertProgress l userId pid ps c now).1.isCompleted = c ∧
    (upsertProgress l userId pid ps c now).1.completedAt =
      (if c then some now else none) := by
  induction l with
  | nil => simp [upsertProgress]
  | cons y ys ih =>
    by_cases hy : (y.userId == userId && y.puzzleId == pid) = true
    · simp [upsertProgress, hy, applyProgressSet]
    · simp [upsertProgress, hy, ih]

/-- After an upsert, looking the natural key up in the store finds exactly
the record the upsert returned. -/
theorem upsertProgress_snd_find?
    (l : List ProgressRecord) (userId pid : Nat) (ps : List String) (c : Bool) (now : Nat) :
    (upsertProgress l userId pid ps c now).2.find?
        (fun r => r.userId == userId && r.puzzleId == pid) =
      some (upsertProgress l userId pid ps c now).1 := by
  induction l with
  | nil => simp [upsertProgress]
  | cons y ys ih =>
    by_cases hy : (y.userId == userId && y.puzzleId == pid) = true
    · have h1 : (y.userId == userId) = true := by
        cases Bool.and_eq_true_iff.mp hy with
        | intro a b => exact a
      have h2 : (y.puzzleId == pid) = true := by
        cases Bool.and_eq_true_iff.mp hy with
        | intro a b => exact b
      simp [upsertProgress, hy, applyProgressSet, List.find?_cons, h1, h2]
    · simp [upsertProgress, hy, List.find?_cons, ih]

/-- Deleting by a predicate that matched at most one record leaves no
record matching it. -/
theorem find?_eraseP_eq_none (l : List ProgressRecord) (p : ProgressRecord → Bool)
    (h : l.countP p ≤ 1) : (l.eraseP p).find? p = none := by
  induction l with
  | nil => simp
  | cons y ys ih =>
    by_cases hy : p y = true
    · rw [List.eraseP_cons_of_pos hy]
      rw [List.find?_eq_none]
      intro x hx
      have h0 : ys.countP p = 0 := by
        rw [List.countP_cons_of_pos p ys hy] at h
        omega
      have := List.countP_eq_zero.mp h0 x hx
      simp [this]
    · rw [List.eraseP_cons_of_neg hy]
      rw [List.find?_cons_of_neg _ hy]
      apply ih
      rw [List.countP_cons_of_neg p ys hy] at h
      exact h

/-- Membership through `insertByOrder`. -/
theorem mem_insertByOrder (p a : Puzzle) (l : List Puzzle) :
    a ∈ insertByOrder p l ↔ a = p ∨ a ∈ l := by
  induction l with
  | nil => simp [insertByOrder]
  | cons q qs ih =>
    by_cases h : p.levelOrder < q.levelOrder
    · simp [insertByOrder, h]
    · simp [insertByOrder, h, ih]
      tauto

/-- Sorting by `levelOrder` neither adds nor drops puzzles. -/
theorem mem_sortByLevelOrder (a : Puzzle) (l : List Puzzle) :
    a ∈ sortByLevelOrder l ↔ a ∈ l := by
  induction l with
  | nil => simp [sortByLevelOrder]
  | cons q qs ih =>
    rw [show sortByLevelOrder (q :: qs) = insertByOrder q (sortByLevelOrder qs) from rfl,
      mem_insertByOrder, ih]
    simp

/-- Every order in `completedLevels` is the order of one of the listed
puzzles. -/
theorem mem_completedLevels_levelOrder (puzzles : List Puzzle)
    (recs : List ProgressRecord) (n : Nat) (h : n ∈ completedLevels puzzles recs) :
    ∃ pz ∈ puzzles, pz.levelOrder = n := by
  rw [completedLevels, List.mem_filterMap] at h
  obtain ⟨p, hp, hfn⟩ := h
  cases hfind : puzzles.find? (fun pz => pz.id == p.puzzleId) with
  | none =>
    rw [hfind] at hfn
    simp at hfn
  | some pz =>
    rw [hfind] at hfn
    by_cases hz : (pz.levelOrder == 0) = true
    · simp [hz] at hfn
    · simp [hz] at hfn
      exact ⟨pz, List.mem_of_find?_eq_some hfind, hfn⟩

/-- Unfolding of `getPuzzleById` once the puzzle lookup succeeded. -/
theorem getPuzzleById_eq_of_found (db : DB) (now userId pid : Nat) (puzzle : Puzzle)
    (hfind : findActivePuzzleById db pid = some puzzle) :
    getPuzzleById db now userId pid =
      (if lockCheck db userId puzzle then FetchResult.levelLocked
       else
         if userTier db userId == Tier.free then
           if hasExistingProgress (findProgress db userId pid) then
             FetchResult.ok puzzle (findProgress db userId pid)
           else
             if 1 ≤ countStartedSince db userId (startOfDayUTC now) then
               FetchResult.dailyLimit
             else FetchResult.ok puzzle (findProgress db userId pid)
         else FetchResult.ok puzzle (findProgress db userId pid)) := by
  simp only [getPuzzleById, hfind]

/-- When the lock check passes, the fetch cannot answer `levelLocked`. -/
theorem getPuzzleById_ne_levelLocked (db : DB) (now userId pid : Nat) (puzzle : Puzzle)
    (hfind : findActivePuzzleById db pid = some puzzle)
    (hlc : lockCheck db userId puzzle = false) :
    getPuzzleById db now userId pid ≠ FetchResult.levelLocked := by
  rw [getPuzzleById_eq_of_found db now userId pid puzzle hfind, hlc]
  simp only [Bool.false_eq_true, if_false]
  split
  · split
    · simp
    · split <;> simp
  · simp

/-- When the lock check fails, the fetch answers `levelLocked`. -/
theorem getPuzzleById_of_lockCheck_true (db : DB) (now userId pid : Nat) (puzzle : Puzzle)
    (hfind : findActivePuzzleById db pid = some puzzle)
    (hlc : lockCheck db userId puzzle = true) :
    getPuzzleById db now userId pid = FetchResult.levelLocked := by
  rw [getPuzzleById_eq_of_found db now userId pid puzzle hfind, hlc]
  simp

/-! ### Counterexamples -/

/-- C1 counterexample: on `dbC1`, puzzle 2 is locked for user 7 (the
single-level fetch answers `levelLocked`, and the free-tier quota is
also exhausted), yet `PUT /progress/2` succeeds and persists a record —
the save path performs no unlock or quota resolution. -/
theorem C1_counterexample :
    getPuzzleById dbC1 exNow 7 2 = FetchResult.levelLocked ∧
    (putProgress dbC1 exNow 7 2 ["q1"]).1 = SaveResult.ok recC1saved ∧
    findProgress (putProgress dbC1 exNow 7 2 ["q1"]).2 7 2 = some recC1saved := by
  decide

/-- C2 counterexample: on `dbC2` user 7 has an existing `ProgressRecord`
for puzzle 1 with an empty `placedPieceIds`, yet the single-level fetch
of puzzle 1 is denied with `daily_limit` — an empty record does not
bypass the quota. -/
theorem C2_counterexample :
    findProgress dbC2 7 1 = some recEmptyToday ∧
    recEmptyToday.placedPieceIds = [] ∧
    getPuzzleById dbC2 exNow 7 1 = FetchResult.dailyLimit := by
  decide

/-- C3 counterexample: user 7's record for puzzle 1 has
`completedAt = some 1000`, and a subsequent normal save supplying a
single piece (below the 4-piece threshold) sets `completedAt` back to
`none`. -/
theorem C3_counterexample :
    findProgress dbC3 7 1 = some recDone ∧
    recDone.completedAt = some 1000 ∧
    (putProgress dbC3 exNow 7 1 ["a"]).1 = SaveResult.ok recC3after ∧
    recC3after.completedAt = none := by
  decide

/-- C4 counterexample: saving the same completing `placedPieces` twice,
at instants 10 and 20, yields `completedAt = some 10` then
`completedAt = some 20` — the stamp is renewed on every completing save,
not only on the first crossing. -/
theorem C4_counterexample :
    (putProgress dbFresh 10 7 1 pieces4).1 = SaveResult.ok recC4first ∧
    (putProgress (putProgress dbFresh 10 7 1 pieces4).2 20 7 1 pieces4).1 =
      SaveResult.ok recC4second ∧
    recC4first.completedAt ≠ recC4second.completedAt := by
  decide

/-- C5 counterexample: on the 2×2 puzzle, a list of four copies of one
piece id (one distinct entry, below the threshold of 4) is stored with
`completed == true` — the code compares the raw list length, so
duplicates do count toward the threshold. -/
theorem C5_counterexample :
    dupPieces.dedup.length = 1 ∧
    pzA.gridRows * pzA.gridCols = 4 ∧
    (putProgress dbFresh exNow 7 1 dupPieces).1 = SaveResult.ok recC5after ∧
    recC5after.isCompleted = true := by
  decide

/-- C6 counterexample: on `dbGap` (no active level at order 2), the
single-level fetch of the order-3 puzzle treats it as unlocked, but the
per-user listing marks the very same puzzle `isUnlocked = false`. -/
theorem C6_counterexample :
    getPuzzleById dbGap exNow 8 3 = FetchResult.ok pzC none ∧
    (listPuzzles dbGap 8).find? (fun st => st.id == 3) =
      some { id := 3, levelOrder := 3, isUnlocked := false, isCompleted := false,
             progress := none } := by
  decide

/-! ### Claim theorems -/

/-- C1 (amended): the save (`PUT /progress/:puzzleId`) resolves through
neither the Unlock Policy nor the Quota Governor: whenever the puzzle
exists (even inactive, even locked for this user, even with the free-tier
quota exhausted) the save succeeds and persists the record; the save
route can never answer Forbidden. -/
theorem C1_save_unguarded (db : DB) (now userId pid : Nat) (ps : List String)
    (puzzle : Puzzle) (hpz : findPuzzleById db pid = some puzzle) :
    (putProgress db now userId pid ps).1 ≠ SaveResult.notFound ∧
    ∀ r, (putProgress db now userId pid ps).1 = SaveResult.ok r →
      findProgress (putProgress db now userId pid ps).2 userId pid = some r := by
  constructor
  · simp [putProgress, hpz]
  · intro r hr
    simp only [putProgress, hpz] at hr ⊢
    cases hr
    exact upsertProgress_snd_find? db.progress userId pid ps _ now

/-- C2 (amended): the daily-limit denial of `GET /puzzles/:id` is bypassed
only by a ProgressRecord holding at least one placed piece: when the
fetch answers `daily_limit`, the user's record for that level — if any —
has an empty `placedPieces`; and a record with a non-empty
`placedPieces` rules the denial out. -/
theorem C2_quota_needs_nonempty_progress (db : DB) (now userId pid : Nat) :
    (getPuzzleById db now userId pid = FetchResult.dailyLimit →
      ∀ r, findProgress db userId pid = some r → r.placedPieceIds = []) ∧
    (∀ r, findProgress db userId pid = some r → r.placedPieceIds ≠ [] →
      getPuzzleById db now userId pid ≠ FetchResult.dailyLimit) := by
  have main : getPuzzleById db now userId pid = FetchResult.dailyLimit →
      ∀ r, findProgress db userId pid = some r → r.placedPieceIds = [] := by
    intro h r hr
    cases hfind : findActivePuzzleById db pid with
    | none => simp [getPuzzleById, hfind] at h
    | some puzzle =>
      rw [getPuzzleById_eq_of_found db now userId pid puzzle hfind] at h
      split_ifs at h with h1 h2 h3 h4
      simp_all [hasExistingProgress]
  exact ⟨main, fun r hr hne h => hne (main h r hr)⟩

/-- C3 (amended): a normal save recomputes `completedAt` from the current
call alone: it is stamped with the save time when the supplied
`placedPieces` meet the `rows*cols` threshold and reset to null
otherwise — so a save below the threshold on a completed record clears
the stamp (see `C3_counterexample`); only the explicit reset deletes the
record itself. -/
theorem C3_completedAt_recomputed (db : DB) (now userId pid : Nat) (ps : List String)
    (puzzle : Puzzle) (hpz : findPuzzleById db pid = some puzzle) :
    ∀ r, (putProgress db now userId pid ps).1 = SaveResult.ok r →
      r.completedAt =
        if puzzle.gridRows * puzzle.gridCols ≤ ps.length then some now else none := by
  intro r hr
  simp only [putProgress, hpz] at hr
  cases hr
  rw [(upsertProgress_fst_fields db.progress userId pid ps
      (decide (puzzle.gridRows * puzzle.gridCols ≤ ps.length)) now).2.2]
  by_cases hc : puzzle.gridRows * puzzle.gridCols ≤ ps.length <;> simp [hc]

/-- C4 (amended): two consecutive saves with the same `placedPieces`
agree on `completed`, but `completedAt` is re-stamped with the current
time on every save that satisfies completion (and nulled otherwise), so
the two saves agree on `completedAt` only when they happen at the same
instant — the stamp is not reserved to the
not-completed-to-completed transition. -/
theorem C4_resave_restamps (db : DB) (t1 t2 userId pid : Nat) (ps : List String)
    (puzzle : Puzzle) (hpz : findPuzzleById db pid = some puzzle) :
    ∀ r1 r2, (putProgress db t1 userId pid ps).1 = SaveResult.ok r1 →
      (putProgress (putProgress db t1 userId pid ps).2 t2 userId pid ps).1 =
        SaveResult.ok r2 →
      r2.isCompleted = r1.isCompleted ∧
      r1.completedAt =
        (if puzzle.gridRows * puzzle.gridCols ≤ ps.length then some t1 else none) ∧
      r2.completedAt =
        (if puzzle.gridRows * puzzle.gridCols ≤ ps.length then some t2 else none) ∧
      (t1 = t2 → r1 = r2) := by
  intro r1 r2 h1 h2
  have hstep : putProgress db t1 userId pid ps =
      (SaveResult.ok (upsertProgress db.progress userId pid ps
          (decide (puzzle.gridRows * puzzle.gridCols ≤ ps.length)) t1).1,
        { db with progress := (upsertProgress db.progress userId pid ps
            (decide (puzzle.gridRows * puzzle.gridCols ≤ ps.length)) t1).2 }) := by
    simp only [putProgress, hpz]
  rw [hstep] at h1 h2
  have hpz2 : findPuzzleById
      { db with progress := (upsertProgress db.progress userId pid ps
          (decide (puzzle.gridRows * puzzle.gridCols ≤ ps.length)) t1).2 } pid =
      some puzzle := hpz
  simp only [putProgress, hpz2] at h2
  cases h1
  cases h2
  have hfields1 := upsertProgress_fst_fields db.progress userId pid ps
    (decide (puzzle.gridRows * puzzle.gridCols ≤ ps.length)) t1
  have hsnd := upsertProgress_snd_find? db.progress userId pid ps
    (decide (puzzle.gridRows * puzzle.gridCols ≤ ps.length)) t1
  have h2eq := upsertProgress_fst_of_find?_eq_some _ userId pid ps
    (decide (puzzle.gridRows * puzzle.gridCols ≤ ps.length)) t2 _ hsnd
  refine ⟨?_, ?_, ?_, ?_⟩
  · rw [h2eq, hfields1.2.1]
    simp [applyProgressSet]
  · rw [hfields1.2.2]
    by_cases hc : puzzle.gridRows * puzzle.gridCols ≤ ps.length <;> simp [hc]
  · rw [h2eq]
    simp only [applyProgressSet]
    by_cases hc : puzzle.gridRows * puzzle.gridCols ≤ ps.length <;> simp [hc]
  · intro ht
    subst ht
    rw [h2eq]
    apply ProgressRecord.eq_of_fields <;>
      simp [applyProgressSet, hfields1.1, hfields1.2.1, hfields1.2.2]

/-- C5 (amended): the stored `completed` flag equals whether the raw
length of the supplied `placedPieces` list reaches `rows × cols` —
duplicates are counted (see `C5_counterexample`); for duplicate-free
input this is the distinct count, and the stated boundaries hold:
length `rows*cols` gives `true`, `rows*cols - 1` gives `false`. -/
theorem C5_completed_iff_raw_length (db : DB) (now userId pid : Nat) (ps : List String)
    (puzzle : Puzzle) (hpz : findPuzzleById db pid = some puzzle) :
    ∀ r, (putProgress db now userId pid ps).1 = SaveResult.ok r →
      (r.isCompleted = true ↔ puzzle.gridRows * puzzle.gridCols ≤ ps.length) := by
  intro r hr
  simp only [putProgress, hpz] at hr
  cases hr
  rw [(upsertProgress_fst_fields db.progress userId pid ps
      (decide (puzzle.gridRows * puzzle.gridCols ≤ ps.length)) now).2.1]
  simp

/-- C6 (amended): when no active level exists at `order - 1` (a gap),
the single-level fetch degrades open — it never answers `level_locked` —
but the per-user listing degrades closed: the listing entry of such a
level carries `isUnlocked = false`, because the completed-orders set can
only contain orders of active levels. -/
theorem C6_gap_open_fetch_closed_listing (db : DB) (now userId pid : Nat)
    (puzzle : Puzzle)
    (hfind : findActivePuzzleById db pid = some puzzle)
    (hgt : 1 < puzzle.levelOrder)
    (hgap : findActivePuzzleByOrder db (puzzle.levelOrder - 1) = none) :
    getPuzzleById db now userId pid ≠ FetchResult.levelLocked ∧
    ∀ st ∈ listPuzzles db userId, st.levelOrder = puzzle.levelOrder →
      st.isUnlocked = false := by
  constructor
  · apply getPuzzleById_ne_levelLocked db now userId pid puzzle hfind
    simp [lockCheck, hgt, hgap]
  · intro st hst heq
    simp only [listPuzzles] at hst
    rw [List.mem_map] at hst
    obtain ⟨pz, hpzmem, hfa⟩ := hst
    subst hfa
    simp only at heq ⊢
    have hne1 : (pz.levelOrder == 1) = false := by
      rw [heq]
      simp
      omega
    have hnc : (completedLevels (sortByLevelOrder (db.puzzles.filter fun p => p.isActive))
        (db.progress.filter fun r => r.userId == userId)).contains
          (pz.levelOrder - 1) = false := by
      rw [heq]
      cases hcb : (completedLevels (sortByLevelOrder (db.puzzles.filter fun p => p.isActive))
          (db.progress.filter fun r => r.userId == userId)).contains
            (puzzle.levelOrder - 1) with
      | false => rfl
      | true =>
        exfalso
        rw [List.contains_eq_any_beq, List.any_eq_true] at hcb
        obtain ⟨m, hm, hbeq⟩ := hcb
        rw [beq_iff_eq] at hbeq
        rw [← hbeq] at hm
        obtain ⟨pz2, hpz2mem, hpz2ord⟩ := mem_completedLevels_levelOrder _ _ _ hm
        rw [mem_sortByLevelOrder] at hpz2mem
        rw [List.mem_filter] at hpz2mem
        rw [findActivePuzzleByOrder, List.find?_eq_none] at hgap
        exact hgap pz2 hpz2mem.1 (by simp [hpz2ord, hpz2mem.2])
    rw [hne1, hnc]
    rfl

/-- C7: the Unlock Policy on the single-level fetch and the listing —
a level with `order == 1` is never locked (for any user and any progress
state, in the fetch and in the listing), and a level with `order > 1`
whose predecessor at `order - 1` is active is unlocked (the fetch does
not answer `level_locked`) exactly when this user owns a completed
ProgressRecord on that predecessor. -/
theorem C7_unlock_policy (db : DB) (now userId pid : Nat) (puzzle : Puzzle)
    (hfind : findActivePuzzleById db pid = some puzzle) :
    (puzzle.levelOrder = 1 → getPuzzleById db now userId pid ≠ FetchResult.levelLocked) ∧
    (∀ st ∈ listPuzzles db userId, st.levelOrder = 1 → st.isUnlocked = true) ∧
    (∀ prev : Puzzle, 1 < puzzle.levelOrder →
      findActivePuzzleByOrder db (puzzle.levelOrder - 1) = some prev →
      (getPuzzleById db now userId pid ≠ FetchResult.levelLocked ↔
        ∃ r ∈ db.progress, r.userId = userId ∧ r.puzzleId = prev.id ∧
          r.isCompleted = true)) := by
  refine ⟨?_, ?_, ?_⟩
  · intro h1
    apply getPuzzleById_ne_levelLocked db now userId pid puzzle hfind
    simp [lockCheck, h1]
  · intro st hst h1
    simp only [listPuzzles] at hst
    rw [List.mem_map] at hst
    obtain ⟨pz, hpzmem, hfa⟩ := hst
    subst hfa
    simp only at h1 ⊢
    rw [h1]
    simp
  · intro prev hgt hprev
    have hlc : lockCheck db userId puzzle =
        (findCompletedProgress db userId prev.id).isNone := by
      simp [lockCheck, hgt, hprev]
    constructor
    · intro hne
      cases hn : findCompletedProgress db userId prev.id with
      | none =>
        exfalso
        apply hne
        apply getPuzzleById_of_lockCheck_true db now userId pid puzzle hfind
        rw [hlc, hn]
        rfl
      | some r =>
        simp only [findCompletedProgress] at hn
        have hmem := List.mem_of_find?_eq_some hn
        have hpr := List.find?_some hn
        simp only [Bool.and_eq_true, beq_iff_eq] at hpr
        exact ⟨r, hmem, hpr.1.1, hpr.1.2, hpr.2⟩
    · intro hex
      apply getPuzzleById_ne_levelLocked db now userId pid puzzle hfind
      have hisSome : (findCompletedProgress db userId prev.id).isSome = true := by
        simp only [findCompletedProgress, List.find?_isSome]
        obtain ⟨r, hmem, hu, hp, hc⟩ := hex
        exact ⟨r, hmem, by simp [hu, hp, hc]⟩
      cases ho : findCompletedProgress db userId prev.id with
      | some r =>
        rw [hlc, ho]
        rfl
      | none =>
        rw [ho] at hisSome
        simp at hisSome

/-- C8: the Quota Governor on the single-level fetch — for a free-tier
user reaching the quota step with no existing record on the requested
level, `startOfDayUTC` is the instant truncated to 00:00:00 UTC of the
current day, and the fetch answers `daily_limit` exactly when at least
one of the user's progress records was created at or after it; with a
count of zero the fetch succeeds. -/
theorem C8_quota_governor (db : DB) (now userId pid : Nat) (puzzle : Puzzle)
    (hfind : findActivePuzzleById db pid = some puzzle)
    (hlock : lockCheck db userId puzzle = false)
    (htier : userTier db userId = Tier.free)
    (hprog : findProgress db userId pid = none) :
    (startOfDayUTC now % msPerDay = 0 ∧ startOfDayUTC now ≤ now ∧
      now < startOfDayUTC now + msPerDay) ∧
    (getPuzzleById db now userId pid = FetchResult.dailyLimit ↔
      1 ≤ countStartedSince db userId (startOfDayUTC now)) ∧
    (countStartedSince db userId (startOfDayUTC now) = 0 →
      getPuzzleById db now userId pid = FetchResult.ok puzzle none) := by
  refine ⟨?_, ?_, ?_⟩
  · unfold startOfDayUTC msPerDay
    omega
  · rw [getPuzzleById_eq_of_found db now userId pid puzzle hfind]
    simp only [hlock, htier, hprog, hasExistingProgress]
    by_cases hc : 1 ≤ countStartedSince db userId (startOfDayUTC now) <;> simp [hc]
  · intro h0
    rw [getPuzzleById_eq_of_found db now userId pid puzzle hfind]
    simp [hlock, htier, hprog, hasExistingProgress, h0]

/-- C9: `createdAt` is immutable under the upsert — a save on an existing
record rewrites exactly `placedPieces`, `completed` and `completedAt`,
keeping the key fields and `createdAt`; after a reset the record is gone
(given the natural-key uniqueness the store enforces), and a save after
the reset creates a fresh record stamped with the new save time. -/
theorem C9_createdAt_immutable (db : DB) (now now2 userId pid : Nat)
    (ps ps2 : List String) (puzzle : Puzzle) (r0 : ProgressRecord)
    (hpz : findPuzzleById db pid = some puzzle)
    (hr0 : findProgress db userId pid = some r0) :
    (∀ r, (putProgress db now userId pid ps).1 = SaveResult.ok r →
      r = { r0 with
            placedPieceIds := ps
            isCompleted := decide (puzzle.gridRows * puzzle.gridCols ≤ ps.length)
            completedAt :=
              if puzzle.gridRows * puzzle.gridCols ≤ ps.length then some now
              else none }) ∧
    (db.progress.countP (fun r => r.userId == userId && r.puzzleId == pid) ≤ 1 →
      findProgress (deleteProgress db userId pid) userId pid = none ∧
      ∀ r2, (putProgress (deleteProgress db userId pid) now2 userId pid ps2).1 =
          SaveResult.ok r2 → r2.createdAt = now2) := by
  constructor
  · intro r hr
    simp only [putProgress, hpz] at hr
    cases hr
    rw [upsertProgress_fst_of_find?_eq_some db.progress userId pid ps
      (decide (puzzle.gridRows * puzzle.gridCols ≤ ps.length)) now r0 hr0]
    simp only [applyProgressSet]
    by_cases hc : puzzle.gridRows * puzzle.gridCols ≤ ps.length <;> simp [hc]
  · intro hcount
    have hnone : (db.progress.eraseP
        (fun r => r.userId == userId && r.puzzleId == pid)).find?
        (fun r => r.userId == userId && r.puzzleId == pid) = none :=
      find?_eraseP_eq_none db.progress _ hcount
    refine ⟨hnone, ?_⟩
    intro r2 hr2
    have hpz' : findPuzzleById (deleteProgress db userId pid) pid = some puzzle := hpz
    simp only [putProgress, hpz'] at hr2
    cases hr2
    simp only [deleteProgress]
    rw [upsertProgress_fst_of_find?_eq_none _ userId pid ps2
      (decide (puzzle.gridRows * puzzle.gridCols ≤ ps2.length)) now2 hnone]

/-- C10: the error checks of the single-level fetch are strictly ordered:
an absent or inactive puzzle yields `notFound` before anything else, a
failing lock check yields `level_locked` before the quota is consulted,
and a `daily_limit` answer implies the puzzle was found active and its
lock check passed. -/
theorem C10_check_ordering (db : DB) (now userId pid : Nat) :
    (findActivePuzzleById db pid = none →
      getPuzzleById db now userId pid = FetchResult.notFound) ∧
    (∀ puzzle, findActivePuzzleById db pid = some puzzle →
      lockCheck db userId puzzle = true →
      getPuzzleById db now userId pid = FetchResult.levelLocked) ∧
    (getPuzzleById db now userId pid = FetchResult.dailyLimit →
      ∃ puzzle, findActivePuzzleById db pid = some puzzle ∧
        lockCheck db userId puzzle = false) := by
  refine ⟨?_, ?_, ?_⟩
  · intro h
    simp [getPuzzleById, h]
  · intro puzzle h hl
    rw [getPuzzleById_eq_of_found db now userId pid puzzle h]
    simp [hl]
  · intro h
    cases hfind : findActivePuzzleById db pid with
    | none => simp [getPuzzleById, hfind] at h
    | some puzzle =>
      cases hlc : lockCheck db userId puzzle with
      | true =>
        rw [getPuzzleById_eq_of_found db now userId pid puzzle hfind] at h
        simp [hlc] at h
      | false => exact ⟨puzzle, rfl, hlc⟩

/-! ### Witnesses -/

/-- C1 witness: on `dbC1` the puzzle exists, so the save persists — the
record is readable back even though the level is locked for the user. -/
theorem C1_save_unguarded_witness :
    findProgress (putProgress dbC1 exNow 7 2 ["q1"]).2 7 2 = some recC1saved :=
  (C1_save_unguarded dbC1 exNow 7 2 ["q1"] pzB (by decide)).2 recC1saved (by decide)

/-- C2 witness: on `dbC2` the fetch of puzzle 1 answers `daily_limit`,
so the user's record for it must be empty. -/
theorem C2_quota_needs_nonempty_progress_witness :
    recEmptyToday.placedPieceIds = [] :=
  (C2_quota_needs_nonempty_progress dbC2 exNow 7 1).1 (by decide) recEmptyToday (by decide)

/-- C3 witness: the one-piece save on the completed `dbC3` record carries
a recomputed (cleared) `completedAt`. -/
theorem C3_completedAt_recomputed_witness :
    recC3after.completedAt =
      if pzA.gridRows * pzA.gridCols ≤ (["a"] : List String).length then some exNow
      else none :=
  C3_completedAt_recomputed dbC3 exNow 7 1 ["a"] pzA (by decide) recC3after (by decide)

/-- C4 witness: the two completing saves at instants 10 and 20 on
`dbFresh` agree on `completed` and carry stamps `some 10` and `some 20`. -/
theorem C4_resave_restamps_witness :
    recC4second.isCompleted = recC4first.isCompleted ∧
    recC4first.completedAt =
      (if pzA.gridRows * pzA.gridCols ≤ pieces4.length then some 10 else none) ∧
    recC4second.completedAt =
      (if pzA.gridRows * pzA.gridCols ≤ pieces4.length then some 20 else none) ∧
    ((10 : Nat) = 20 → recC4first = recC4second) :=
  C4_resave_restamps dbFresh 10 20 7 1 pieces4 pzA (by decide) recC4first recC4second
    (by decide) (by decide)

/-- C5 witness: the completion flag at the boundary — a 4-piece save on
the 2×2 grid is completed, a 3-piece save is not. -/
theorem C5_completed_iff_raw_length_witness :
    (recC4first.isCompleted = true ↔ pzA.gridRows * pzA.gridCols ≤ pieces4.length) ∧
    (recThreeSaved.isCompleted = true ↔ pzA.gridRows * pzA.gridCols ≤ pieces3.length) :=
  ⟨C5_completed_iff_raw_length dbFresh 10 7 1 pieces4 pzA (by decide) recC4first
      (by decide),
   C5_completed_iff_raw_length dbFresh 10 7 1 pieces3 pzA (by decide) recThreeSaved
      (by decide)⟩

/-- C6 witness: on `dbGap` the order-3 level (gap at order 2) is not
`level_locked` on the fetch, and its listing entry `stGap` — a member of
the listing — is marked locked. -/
theorem C6_gap_open_fetch_closed_listing_witness :
    getPuzzleById dbGap exNow 8 3 ≠ FetchResult.levelLocked ∧ stGap.isUnlocked = false :=
  ⟨(C6_gap_open_fetch_closed_listing dbGap exNow 8 3 pzC (by decide) (by decide)
      (by decide)).1,
   (C6_gap_open_fetch_closed_listing dbGap exNow 8 3 pzC (by decide) (by decide)
      (by decide)).2 stGap (by decide) (by decide)⟩

/-- C7 witness: level 1 is never locked on `dbC1`, and on `dbC7` level 2
is not locked because user 7 completed level 1. -/
theorem C7_unlock_policy_witness :
    getPuzzleById dbC1 exNow 7 1 ≠ FetchResult.levelLocked ∧
    getPuzzleById dbC7 exNow 7 2 ≠ FetchResult.levelLocked :=
  ⟨(C7_unlock_policy dbC1 exNow 7 1 pzA (by decide)).1 (by decide),
   ((C7_unlock_policy dbC7 exNow 7 2 pzB (by decide)).2.2 pzA (by decide)
      (by decide)).mpr ⟨recDone, by decide, by decide, by decide, by decide⟩⟩

/-- C8 witness: on `dbC8` (one record created today) the quota denies the
fetch of the untouched order-3 level, and on `dbFresh` (no record today)
it allows the fetch. -/
theorem C8_quota_governor_witness :
    (getPuzzleById dbC8 exNow 7 3 = FetchResult.dailyLimit ↔
      1 ≤ countStartedSince dbC8 7 (startOfDayUTC exNow)) ∧
    getPuzzleById dbFresh exNow 7 1 = FetchResult.ok pzA none :=
  ⟨(C8_quota_governor dbC8 exNow 7 3 pzC (by decide) (by decide) (by decide)
      (by decide)).2.1,
   (C8_quota_governor dbFresh exNow 7 1 pzA (by decide) (by decide) (by decide)
      (by decide)).2.2 (by decide)⟩

/-- C9 witness: on `dbC3` the one-piece save rewrites exactly the payload
fields of `recDone` (keeping `createdAt = 1000`); after the reset the
record is gone, and the save at instant 99 creates `createdAt = 99`. -/
theorem C9_createdAt_immutable_witness :
    (recC3after = { recDone with
        placedPieceIds := ["a"]
        isCompleted := decide (pzA.gridRows * pzA.gridCols ≤ (["a"] : List String).length)
        completedAt :=
          if pzA.gridRows * pzA.gridCols ≤ (["a"] : List String).length then some exNow
          else none }) ∧
    findProgress (deleteProgress dbC3 7 1) 7 1 = none ∧
    recFreshReset.createdAt = 99 :=
  have h := C9_createdAt_immutable dbC3 exNow 99 7 1 ["a"] ["z"] pzA recDone
    (by decide) (by decide)
  ⟨h.1 recC3after (by decide),
   (h.2 (by decide)).1,
   (h.2 (by decide)).2 recFreshReset (by decide)⟩

/-- C10 witness: an absent puzzle id on `dbFresh` yields `notFound`, and
the locked level 2 on `dbC1` yields `level_locked` even though the free
user's quota is also exhausted there. -/
theorem C10_check_ordering_witness :
    getPuzzleById dbFresh exNow 7 42 = FetchResult.notFound ∧
    getPuzzleById dbC1 exNow 7 2 = FetchResult.levelLocked :=
  ⟨(C10_check_ordering dbFresh exNow 7 42).1 (by decide),
   (C10_check_ordering dbC1 exNow 7 2).2.1 pzB (by decide) (by decide)⟩

end Junivia
